import Mathlib

/-!
Shallow embedding of `dns/tsig.py` (DNS TSIG signing and validation,
RFC 8945): the `Key` data model, the HMAC and GSS algorithm engines, the
canonical digest builder `_digest`, and the top-level `sign` and
`validate` operations.  Python exceptions are modelled with an `Except`
monad over an explicit error type; byte strings are `List Nat`; the
underlying keyed-hash primitives (Python's `hashlib`/`hmac` modules,
external to the repository) are a parameter `Hashlib` of the embedding.
-/

namespace Tsig

/-- The exceptions the module can raise.  `formError`, `badTime`,
`badSignature`, `badKey`, `badAlgorithm` and the peer errors are the
classes declared in `tsig.py` (with `dns.exception.FormError` for the
malformed-message case); `notImplementedError`, `valueError`,
`structError`, `typeError` and `attributeError` are the Python built-ins
the code can raise; `pyExc n` is an arbitrary foreign exception (tagged
by a code) raised by an injected GSS security context. -/
inductive PyErr where
  | formError
  | badTime
  | badSignature
  | badKey
  | badAlgorithm
  | peerBadSignature
  | peerBadKey
  | peerBadTime
  | peerBadTruncation
  | peerError (code : Nat)
  | notImplementedError
  | valueError
  | structError
  | typeError
  | attributeError
  | pyExc (code : Nat)
  deriving DecidableEq, Repr

/-- A DNS name label, as its bytes (dnspython stores labels lowercased
for digest purposes; we keep labels already canonical). -/
abbrev Label := List Nat

/-- A DNS name: its list of labels (the implicit root label is appended
by `Name.to_digestable`). -/
abbrev Name := List Label

/-- Byte values of an ASCII string, for writing down the well-known
algorithm names. -/
def asciiLabel (s : String) : Label := s.data.map Char.toNat

/-- `dns.name.Name.to_digestable`: the canonical uncompressed wire form
used for digesting — each label length-prefixed, ending with the root
label's zero byte. -/
def Name.to_digestable (n : Name) : List Nat :=
  (n.map fun l => l.length :: l).flatten ++ [0]

def HMAC_MD5 : Name :=
  [asciiLabel "hmac-md5", asciiLabel "sig-alg", asciiLabel "reg", asciiLabel "int"]
def HMAC_SHA1 : Name := [asciiLabel "hmac-sha1"]
def HMAC_SHA224 : Name := [asciiLabel "hmac-sha224"]
def HMAC_SHA256 : Name := [asciiLabel "hmac-sha256"]
def HMAC_SHA256_128 : Name := [asciiLabel "hmac-sha256-128"]
def HMAC_SHA384 : Name := [asciiLabel "hmac-sha384"]
def HMAC_SHA384_192 : Name := [asciiLabel "hmac-sha384-192"]
def HMAC_SHA512 : Name := [asciiLabel "hmac-sha512"]
def HMAC_SHA512_256 : Name := [asciiLabel "hmac-sha512-256"]
def GSS_TSIG : Name := [asciiLabel "gss-tsig"]

def default_algorithm : Name := HMAC_SHA256

/-- Modelled from the spec: the TSIG error-code constants of
`dns.rcode` (a module of this repository not present under `src/`),
with their RFC 8945 / RFC 2845 values.  Only their identities matter to
`validate`'s dispatch. -/
def BADSIG : Nat := 16
/-- Modelled from the spec: `dns.rcode.BADKEY`. -/
def BADKEY : Nat := 17
/-- Modelled from the spec: `dns.rcode.BADTIME`. -/
def BADTIME : Nat := 18
/-- Modelled from the spec: `dns.rcode.BADTRUNC`. -/
def BADTRUNC : Nat := 22

/-- Modelled from the spec: `dns.rdataclass.ANY` (the class fed into
the digest), value 255. -/
def rdataclassANY : Nat := 255

/-- An underlying keyed-hash primitive as used through Python's `hmac`
module: `mac key data` is the full HMAC digest for this `digestmod`,
and `digest_size` its native length, which every digest has
(`len_law`). -/
structure HashFn where
  mac : List Nat → List Nat → List Nat
  digest_size : Nat
  len_law : ∀ k d, (mac k d).length = digest_size

/-- The bundle of hash primitives `hashlib` provides; the embedding is
parameterized by it since `hashlib` is external to the repository. -/
structure Hashlib where
  sha1 : HashFn
  sha224 : HashFn
  sha256 : HashFn
  sha384 : HashFn
  sha512 : HashFn
  md5 : HashFn

/-- `struct.pack("!H", n)`: two big-endian bytes, `struct.error` when
the value does not fit 16 bits. -/
def packH (n : Nat) : Except PyErr (List Nat) :=
  if n < 65536 then .ok [n / 256, n % 256] else .error .structError

/-- `struct.pack("!I", n)`: four big-endian bytes, `struct.error` when
the value does not fit 32 bits. -/
def packI (n : Nat) : Except PyErr (List Nat) :=
  if n < 4294967296 then
    .ok [n / 16777216, n / 65536 % 256, n / 256 % 256, n % 256]
  else .error .structError

/-- `HMACTSig._hashes`: the table mapping each supported algorithm name
to its `hashlib` primitive, together with the truncation bit length for
the three truncated variants (`None` i.e. `none` for the full-length
ones). -/
def hashTable (hl : Hashlib) : List (Name × (HashFn × Option Nat)) :=
  [ (HMAC_SHA1, (hl.sha1, none)),
    (HMAC_SHA224, (hl.sha224, none)),
    (HMAC_SHA256, (hl.sha256, none)),
    (HMAC_SHA256_128, (hl.sha256, some 128)),
    (HMAC_SHA384, (hl.sha384, none)),
    (HMAC_SHA384_192, (hl.sha384, some 192)),
    (HMAC_SHA512, (hl.sha512, none)),
    (HMAC_SHA512_256, (hl.sha512, some 256)),
    (HMAC_MD5, (hl.md5, none)) ]

/-- Dictionary lookup `HMACTSig._hashes[algorithm]`. -/
def hashLookup (hl : Hashlib) (algorithm : Name) : Option (HashFn × Option Nat) :=
  (hashTable hl).lookup algorithm

/-- The opaque, caller-supplied GSS-API security context: the narrow
interface `tsig.py` uses.  Its methods may raise arbitrary exceptions,
modelled as `Except Nat`. -/
structure GssContext where
  get_signature : List Nat → Except Nat (List Nat)
  verify_signature : List Nat → List Nat → Except Nat Unit

/-- A `Key`'s secret: raw bytes for the HMAC algorithms, the GSS-API
context object for `gss-tsig` (`Key.secret` holds either in Python). -/
inductive Secret where
  | bytes (b : List Nat)
  | gss (c : GssContext)

/-- `GSSTSig`: buffers fed bytes and defers signing/verification to the
stored security context. -/
structure GSSTSig where
  gssapi_context : Secret
  data : List Nat

/-- `GSSTSig.__init__(gssapi_context)`. -/
def GSSTSig.init (gssapi_context : Secret) : GSSTSig :=
  { gssapi_context := gssapi_context, data := [] }

/-- `GSSTSig.update`. -/
def GSSTSig.update (g : GSSTSig) (d : List Nat) : GSSTSig :=
  { g with data := g.data ++ d }

/-- `GSSTSig.sign`: defers to `gssapi_context.get_signature` with no
exception handling — a context exception propagates (`pyExc`); a
non-context object stored as the context raises `AttributeError`. -/
def GSSTSig.sign (g : GSSTSig) : Except PyErr (List Nat) :=
  match g.gssapi_context with
  | .gss c =>
      match c.get_signature g.data with
      | .ok m => .ok m
      | .error e => .error (.pyExc e)
  | .bytes _ => .error .attributeError

/-- `GSSTSig.verify`: defers to `gssapi_context.verify_signature`; any
exception whatsoever (bare `except Exception`) is replaced by
`BadSignature`. -/
def GSSTSig.verify (g : GSSTSig) (expected : List Nat) : Except PyErr Unit :=
  match g.gssapi_context with
  | .gss c =>
      match c.verify_signature g.data expected with
      | .ok _ => .ok ()
      | .error _ => .error .badSignature
  | .bytes _ => .error .badSignature

/-- `HMACTSig`: a streaming HMAC context.  Python's `hmac.new(key,
digestmod=h)` followed by `update` calls is a pure function of the key
and the concatenation of the fed chunks, so the state is the hash
primitive, the optional truncation bit size, the key and the
accumulated bytes. -/
structure HMACTSig where
  hashFn : HashFn
  size : Option Nat
  key : List Nat
  data : List Nat

/-- `HMACTSig.__init__(key, algorithm)`: looks the algorithm up in
`_hashes` (raising `NotImplementedError` when absent), then builds the
HMAC context from the key — which must be bytes, else `hmac.new` raises
`TypeError`. -/
def HMACTSig.init (hl : Hashlib) (key : Secret) (algorithm : Name) :
    Except PyErr HMACTSig :=
  match hashLookup hl algorithm with
  | none => .error .notImplementedError
  | some (h, sz) =>
      match key with
      | .bytes b => .ok { hashFn := h, size := sz, key := b, data := [] }
      | .gss _ => .error .typeError

/-- `HMACTSig.update`. -/
def HMACTSig.update (c : HMACTSig) (d : List Nat) : HMACTSig :=
  { c with data := c.data ++ d }

/-- Python truthiness of the stored `size` (`if self.size:`). -/
def sizeTruthy : Option Nat → Bool
  | some s => s ≠ 0
  | none => false

/-- `HMACTSig.sign`: the full digest, truncated to the leading
`size // 8` bytes when a truthy truncation size is set. -/
def HMACTSig.sign (c : HMACTSig) : List Nat :=
  let digest := c.hashFn.mac c.key c.data
  if sizeTruthy c.size then digest.take (c.size.getD 0 / 8) else digest

/-- `HMACTSig.verify`: re-digest and compare (`hmac.compare_digest` is
byte-string equality, computed in constant time); `BadSignature` on any
difference. -/
def HMACTSig.verify (c : HMACTSig) (expected : List Nat) : Except PyErr Unit :=
  if c.sign = expected then .ok () else .error .badSignature

/-- A digest context: one of the two engine classes. -/
inductive TsigCtx where
  | hmac (c : HMACTSig)
  | gss (g : GSSTSig)

/-- Virtual dispatch of `update`. -/
def TsigCtx.update (c : TsigCtx) (d : List Nat) : TsigCtx :=
  match c with
  | .hmac h => .hmac (h.update d)
  | .gss g => .gss (g.update d)

/-- Virtual dispatch of `sign`. -/
def TsigCtx.signMac (c : TsigCtx) : Except PyErr (List Nat) :=
  match c with
  | .hmac h => .ok h.sign
  | .gss g => g.sign

/-- Virtual dispatch of `verify`. -/
def TsigCtx.verifyMac (c : TsigCtx) (expected : List Nat) : Except PyErr Unit :=
  match c with
  | .hmac h => h.verify expected
  | .gss g => g.verify expected

/-- The TSIG rdata fields consumed and produced here: algorithm name,
signing time (optional, since `sign` stores its raw `time` argument
which may be `None`), fudge, MAC, original message ID, error code and
other data. -/
structure TSIGRdata where
  algorithm : Name
  time_signed : Option Nat
  fudge : Nat
  mac : List Nat
  original_id : Nat
  error : Nat
  other : List Nat

/-- `Key`: name, secret and algorithm.  The constructor only converts
textual forms (names parsed, base64 secrets decoded — we take the
already-converted forms) and stores the three fields: it performs no
algorithm validation. -/
structure Key where
  name : Name
  secret : Secret
  algorithm : Name

/-- `Key.__init__(name, secret, algorithm=default_algorithm)` on
pre-parsed arguments: stores the fields unconditionally. -/
def Key.init (name : Name) (secret : Secret)
    (algorithm : Name := default_algorithm) : Key :=
  { name := name, secret := secret, algorithm := algorithm }

/-- `get_context(key)`: a fresh engine for the key — `GSSTSig` on the
key's stored secret for `gss-tsig`, else an `HMACTSig`. -/
def get_context (hl : Hashlib) (key : Key) : Except PyErr TsigCtx :=
  if key.algorithm = GSS_TSIG then
    .ok (.gss (GSSTSig.init key.secret))
  else
    match HMACTSig.init hl key.secret key.algorithm with
    | .ok h => .ok (.hmac h)
    | .error e => .error e

/-- Python truthiness of the optional `request_mac` argument
(`if request_mac:`) — `None` and the empty byte string are falsy. -/
def macTruthy : Option (List Nat) → Bool
  | some m => !m.isEmpty
  | none => false

/-- `_digest(wire, key, rdata, time, request_mac, ctx, multi)`: builds
the canonical RFC 8945 byte stream into a digest context and returns
it.  A supplied open context is continued only when `multi` is truthy
(`first = not (ctx and multi)`); otherwise a fresh context is created
and the full first-message field block is fed. -/
def _digest (hl : Hashlib) (wire : List Nat) (key : Key) (rdata : TSIGRdata)
    (time : Option Nat) (request_mac : Option (List Nat))
    (ctx : Option TsigCtx) (multi : Bool) : Except PyErr TsigCtx :=
  let first := !(ctx.isSome && multi)
  (if first then get_context hl key
   else
     match ctx with
     | some c => .ok c
     | none => get_context hl key) >>= fun c =>
  (if first && macTruthy request_mac then
     packH (request_mac.getD []).length >>= fun lenb =>
       .ok ((c.update lenb).update (request_mac.getD []))
   else .ok c) >>= fun c =>
  packH rdata.original_id >>= fun idb =>
  let c := (c.update idb).update (wire.drop 2)
  (if first then
     packH rdataclassANY >>= fun anyb =>
     packI 0 >>= fun ttlb =>
       .ok (((c.update key.name.to_digestable).update anyb).update ttlb)
   else .ok c) >>= fun c =>
  (match time with
   | some v => .ok v
   | none =>
       match rdata.time_signed with
       | some v => .ok v
       | none => .error PyErr.typeError) >>= fun t =>
  let upper_time := (t >>> 32) % 65536
  let lower_time := t % 4294967296
  packH upper_time >>= fun ub =>
  packI lower_time >>= fun lb =>
  packH rdata.fudge >>= fun fb =>
  let time_encoded := ub ++ lb ++ fb
  let other_len := rdata.other.length
  (if other_len > 65535 then .error PyErr.valueError else .ok ()) >>= fun _ =>
  if first then
    packH rdata.error >>= fun eb =>
    packH other_len >>= fun ob =>
      .ok ((c.update (key.algorithm.to_digestable ++ time_encoded)).update
        (eb ++ ob ++ rdata.other))
  else
    .ok (c.update time_encoded)

/-- `_maybe_start_digest(key, mac, multi)`: when `multi`, a fresh
context for the key pre-seeded with the length-prefixed MAC; else
`None`. -/
def _maybe_start_digest (hl : Hashlib) (key : Key) (mac : List Nat)
    (multi : Bool) : Except PyErr (Option TsigCtx) :=
  if multi then
    get_context hl key >>= fun c =>
    packH mac.length >>= fun lenb =>
      .ok (some ((c.update lenb).update mac))
  else
    .ok none

/-- `sign(wire, key, rdata, time, request_mac, ctx, multi)`: digests
the message, signs, and builds the produced TSIG record — whose
`time_signed` field is the raw `time` argument, not the value `_digest`
defaulted to internally. -/
def sign (hl : Hashlib) (wire : List Nat) (key : Key) (rdata : TSIGRdata)
    (time : Option Nat := none) (request_mac : Option (List Nat) := none)
    (ctx : Option TsigCtx := none) (multi : Bool := false) :
    Except PyErr (TSIGRdata × Option TsigCtx) :=
  _digest hl wire key rdata time request_mac ctx multi >>= fun c =>
  c.signMac >>= fun mac =>
  let tsig : TSIGRdata :=
    { algorithm := key.algorithm, time_signed := time, fudge := rdata.fudge,
      mac := mac, original_id := rdata.original_id, error := rdata.error,
      other := rdata.other }
  _maybe_start_digest hl key mac multi >>= fun nctx =>
  .ok (tsig, nctx)

/-- The additional-record count read from wire bytes 10–11
(`struct.unpack("!H", wire[10:12])`). -/
def adcountOf (wire : List Nat) : Nat :=
  wire.getD 10 0 * 256 + wire.getD 11 0

/-- Absolute difference, `abs(time_signed - now)` on the embedded
natural times. -/
def absDiff (a b : Nat) : Nat := if a ≤ b then b - a else a - b

/-- `validate(wire, key, owner, rdata, now, request_mac, tsig_start,
ctx, multi)`: the ordered checks — additional count, peer error code,
time skew, owner name, algorithm, then MAC verification over the
reconstructed pre-TSIG wire. -/
def validate (hl : Hashlib) (wire : List Nat) (key : Key) (owner : Name)
    (rdata : TSIGRdata) (now : Nat) (request_mac : Option (List Nat))
    (tsig_start : Nat) (ctx : Option TsigCtx := none)
    (multi : Bool := false) : Except PyErr (Option TsigCtx) :=
  if wire.length < 12 then .error PyErr.structError else
  let adcount := adcountOf wire
  if adcount = 0 then .error PyErr.formError else
  let adcount := adcount - 1
  packH adcount >>= fun adb =>
  let new_wire := wire.take 10 ++ adb ++ (wire.take tsig_start).drop 12
  if rdata.error ≠ 0 then
    (if rdata.error = BADSIG then .error PyErr.peerBadSignature
     else if rdata.error = BADKEY then .error PyErr.peerBadKey
     else if rdata.error = BADTIME then .error PyErr.peerBadTime
     else if rdata.error = BADTRUNC then .error PyErr.peerBadTruncation
     else .error (PyErr.peerError rdata.error))
  else
  (match rdata.time_signed with
   | some v => .ok v
   | none => .error PyErr.typeError) >>= fun ts =>
  if absDiff ts now > rdata.fudge then .error PyErr.badTime else
  if key.name ≠ owner then .error PyErr.badKey else
  if key.algorithm ≠ rdata.algorithm then .error PyErr.badAlgorithm else
  _digest hl new_wire key rdata none request_mac ctx multi >>= fun c =>
  c.verifyMac rdata.mac >>= fun _ =>
  _maybe_start_digest hl key rdata.mac multi

/-- The two big-endian bytes of an in-range 16-bit value (the successful
result of `packH`). -/
def pack16 (n : Nat) : List Nat := [n / 256, n % 256]

/-- The four big-endian bytes of an in-range 32-bit value (the
successful result of `packI`). -/
def pack32 (n : Nat) : List Nat :=
  [n / 16777216, n / 65536 % 256, n / 256 % 256, n % 256]

/-- The timestamp block fed to the digest: upper 16 bits of the signing
time, lower 32 bits, and the fudge. -/
def timeEncoded (t fudge : Nat) : List Nat :=
  pack16 ((t >>> 32) % 65536) ++ pack32 (t % 4294967296) ++ pack16 fudge

/-- The length-prefixed request MAC block fed on a first message (empty
when the request MAC is absent or empty). -/
def rmBlock (rm : Option (List Nat)) : List Nat :=
  if macTruthy rm then pack16 (rm.getD []).length ++ rm.getD [] else []

/-- The pre-TSIG wire `validate` reconstructs: header with the
additional count decremented, followed by the body up to the TSIG
record's offset. -/
def new_wireOf (wire : List Nat) (tsig_start : Nat) : List Nat :=
  wire.take 10 ++ pack16 (adcountOf wire - 1) ++ (wire.take tsig_start).drop 12

/-- The message-with-TSIG a caller builds from a signed wire: the
additional count incremented and the TSIG record's bytes appended. -/
def withTsig (wire : List Nat) (extra : List Nat) : List Nat :=
  wire.take 10 ++ pack16 (adcountOf wire + 1) ++ wire.drop 12 ++ extra

/-- The peer error `validate` raises for a nonzero received error
code. -/
def peerErrFor (e : Nat) : PyErr :=
  if e = BADSIG then .peerBadSignature
  else if e = BADKEY then .peerBadKey
  else if e = BADTIME then .peerBadTime
  else if e = BADTRUNC then .peerBadTruncation
  else .peerError e

/-! ### Auxiliary definitions for concrete instantiations -/

/-- A stand-in hash primitive with a fixed digest size, used to
instantiate the `Hashlib` parameter on concrete inputs. -/
def constHash (n : Nat) : HashFn :=
  { mac := fun _ _ => List.replicate n 0,
    digest_size := n,
    len_law := by intro k d; simp }

/-- A concrete `Hashlib` with the real primitives' digest sizes
(SHA-1: 20, SHA-224: 28, SHA-256: 32, SHA-384: 48, SHA-512: 64,
MD5: 16). -/
def hashlib0 : Hashlib :=
  { sha1 := constHash 20, sha224 := constHash 28, sha256 := constHash 32,
    sha384 := constHash 48, sha512 := constHash 64, md5 := constHash 16 }

/-- `m` with bit `b` of byte `i` flipped. -/
def flipBit (m : List Nat) (i b : Nat) : List Nat :=
  m.set i ((m.getD i 0) ^^^ (2 ^ b))

/-- Feeding a sequence of chunks to an HMAC context. -/
def feedAll (c : HMACTSig) (chunks : List (List Nat)) : HMACTSig :=
  chunks.foldl HMACTSig.update c

/-- A sample key name. -/
def name0 : Name := [asciiLabel "keyname", asciiLabel "example"]

/-- An algorithm name outside the supported table. -/
def badAlg0 : Name := [asciiLabel "hmac-sha999"]

/-- A sample HMAC context over the stand-in SHA-256. -/
def hctx0 : HMACTSig :=
  { hashFn := constHash 32, size := none, key := [1, 2], data := [3] }

/-- A GSS security context whose operations always raise the foreign
exception tagged `7`. -/
def badGssCtx : GssContext :=
  { get_signature := fun _ => .error 7,
    verify_signature := fun _ _ => .error 7 }

/-- A minimal 12-byte wire (header only, all counts zero). -/
def wire0 : List Nat := List.replicate 12 0

/-- A sample key over the stand-in SHA-256. -/
def key0 : Key := Key.init name0 (.bytes [1, 2]) HMAC_SHA256

/-- Sample rdata fields: zero error, small other data. -/
def rdata0 : TSIGRdata :=
  { algorithm := HMAC_SHA256, time_signed := some 100, fudge := 300,
    mac := [], original_id := 1, error := 0, other := [] }

/-- The context `HMACTSig.init hashlib0 (.bytes [5]) HMAC_SHA256_128`
produces. -/
def c6w : HMACTSig :=
  { hashFn := constHash 32, size := some 128, key := [5], data := [] }

/-- A GSS engine wrapping the always-failing context. -/
def gss9 : GSSTSig := { gssapi_context := .gss badGssCtx, data := [] }

/-- A 12-byte wire whose additional-record count is 1. -/
def wireV : List Nat := [0, 0, 0, 0, 0, 0, 0, 0, 0, 0, 0, 1]

/-- Received rdata carrying error code BADKEY (17) with an empty MAC. -/
def rdataPeer : TSIGRdata :=
  { algorithm := HMAC_SHA256, time_signed := some 0, fudge := 0, mac := [],
    original_id := 0, error := 17, other := [] }

/-- Received rdata with signing time 100 and fudge 10. -/
def rdataTime : TSIGRdata :=
  { algorithm := HMAC_SHA256, time_signed := some 100, fudge := 10, mac := [],
    original_id := 0, error := 0, other := [] }

/-- The TSIG record `sign hashlib0 wireV key0 rdataTime (some 100)`
produces. -/
def tsigW : TSIGRdata :=
  { algorithm := HMAC_SHA256, time_signed := some 100, fudge := 10,
    mac := List.replicate 32 0, original_id := 0, error := 0, other := [] }

/-! ### Helper lemmas -/

theorem exceptBindErr {α β : Type} (e : PyErr) (f : α → Except PyErr β) :
    (Except.error e >>= f) = Except.error e := rfl

theorem exceptBindOk {α β : Type} (a : α) (f : α → Except PyErr β) :
    (Except.ok a >>= f) = f a := rfl

theorem TsigCtx.update_update (c : TsigCtx) (a b : List Nat) :
    (c.update a).update b = c.update (a ++ b) := by
  cases c <;> simp [TsigCtx.update, HMACTSig.update, GSSTSig.update,
    List.append_assoc]

theorem HMACTSig.feed_hashFn (c : HMACTSig) (chunks : List (List Nat)) :
    (feedAll c chunks).hashFn = c.hashFn ∧ (feedAll c chunks).size = c.size ∧
    (feedAll c chunks).key = c.key := by
  induction chunks generalizing c with
  | nil => exact ⟨rfl, rfl, rfl⟩
  | cons x xs ih =>
      simpa [feedAll, HMACTSig.update] using ih { c with data := c.data ++ x }

theorem Nat.xor_pow_ne (x b : Nat) : x ^^^ 2 ^ b ≠ x := by
  intro h
  have h3 := congrArg (fun y => x ^^^ y) h
  simp only [← Nat.xor_assoc, Nat.xor_self, Nat.zero_xor] at h3
  exact (pow_pos (by norm_num : (0 : ℕ) < 2) b).ne' h3

theorem flipBit_ne (m : List Nat) (i b : Nat) (hi : i < m.length) :
    flipBit m i b ≠ m := by
  intro h
  have hlen : i < (m.set i ((m.getD i 0) ^^^ 2 ^ b)).length := by simpa using hi
  have hv : (m.set i ((m.getD i 0) ^^^ 2 ^ b)).getD i 0 =
      (m.getD i 0) ^^^ 2 ^ b := by
    rw [List.getD_eq_getElem _ 0 hlen]
    exact List.getElem_set_self hlen
  rw [flipBit] at h
  rw [h] at hv
  exact Nat.xor_pow_ne (m.getD i 0) b hv.symm

theorem packH_in {n : Nat} (h : n < 65536) : packH n = .ok (pack16 n) := by
  simp [packH, pack16, h]

theorem packI_in {n : Nat} (h : n < 4294967296) : packI n = .ok (pack32 n) := by
  simp [packI, pack32, h]

theorem sign_trunc (c : HMACTSig) (p : HashFn) (s : Nat) (hf : c.hashFn = p)
    (hs : c.size = some s) (hs0 : s ≠ 0) :
    c.sign = (p.mac c.key c.data).take (s / 8) := by
  simp [HMACTSig.sign, hf, hs, sizeTruthy, hs0]

theorem sign_full (c : HMACTSig) (p : HashFn) (hf : c.hashFn = p)
    (hs : c.size = none) :
    c.sign = p.mac c.key c.data := by
  simp [HMACTSig.sign, hf, hs, sizeTruthy]

theorem init_ok (hl : Hashlib) (key : List Nat) (alg : Name) (p : HashFn)
    (sz : Option Nat) (hlook : hashLookup hl alg = some (p, sz)) (c : HMACTSig)
    (hc : HMACTSig.init hl (.bytes key) alg = .ok c) :
    c = { hashFn := p, size := sz, key := key, data := [] } := by
  rw [HMACTSig.init, hlook] at hc
  simpa using hc.symm

/-! ### Claim theorems -/

/-- C8: for every HMAC engine (any fed byte sequence) and every
candidate MAC, `verify` raises `BadSignature` exactly when the
candidate differs from the recomputed (possibly truncated) digest, and
returns normally when they are equal; flipping any single bit of the
produced MAC yields `BadSignature`. -/
theorem hmac_verify_iff_mismatch (c : HMACTSig) :
    (∀ expected,
      (HMACTSig.verify c expected = .error .badSignature ↔ expected ≠ c.sign) ∧
      (HMACTSig.verify c expected = .ok () ↔ expected = c.sign)) ∧
    (∀ i b, i < c.sign.length → b < 8 →
      HMACTSig.verify c (flipBit c.sign i b) = .error .badSignature) := by
  constructor
  · intro expected
    constructor
    · simp only [HMACTSig.verify]
      split
      · next h =>
          exact ⟨fun hc => Except.noConfusion hc, fun hh => absurd h.symm hh⟩
      · next h =>
          exact ⟨fun _ hh => h hh.symm, fun _ => rfl⟩
    · simp only [HMACTSig.verify]
      split
      · next h => exact ⟨fun _ => h.symm, fun _ => rfl⟩
      · next h =>
          exact ⟨fun hc => Except.noConfusion hc, fun hh => absurd hh.symm h⟩
  · intro i b hi _hb
    have hne : c.sign ≠ flipBit c.sign i b := (flipBit_ne c.sign i b hi).symm
    simp [HMACTSig.verify, hne]

theorem hmac_verify_iff_mismatch_witness :
    ([9] ≠ hctx0.sign ∧
      HMACTSig.verify hctx0 [9] = .error .badSignature) ∧
    (0 < hctx0.sign.length ∧ 0 < 8 ∧
      HMACTSig.verify hctx0 (flipBit hctx0.sign 0 0) = .error .badSignature) :=
  ⟨⟨by decide, ((hmac_verify_iff_mismatch hctx0).1 [9]).1.mpr (by decide)⟩,
   ⟨by decide, by decide,
    (hmac_verify_iff_mismatch hctx0).2 0 0 (by decide) (by decide)⟩⟩

/-- C6: for every sequence of fed chunks, an engine built for
`hmac-sha256-128` signs to exactly 16 bytes (the leading bytes of the
full SHA-256 HMAC digest), `hmac-sha384-192` to 24, `hmac-sha512-256`
to 32; each untruncated algorithm returns its primitive's full digest
of native length. -/
theorem hmac_sign_lengths (hl : Hashlib) (key : List Nat)
    (chunks : List (List Nat)) (h256 : hl.sha256.digest_size = 32)
    (h384 : hl.sha384.digest_size = 48) (h512 : hl.sha512.digest_size = 64) :
    (∀ c, HMACTSig.init hl (.bytes key) HMAC_SHA256_128 = .ok c →
      (feedAll c chunks).sign = (hl.sha256.mac key (feedAll c chunks).data).take 16 ∧
      (feedAll c chunks).sign.length = 16) ∧
    (∀ c, HMACTSig.init hl (.bytes key) HMAC_SHA384_192 = .ok c →
      (feedAll c chunks).sign = (hl.sha384.mac key (feedAll c chunks).data).take 24 ∧
      (feedAll c chunks).sign.length = 24) ∧
    (∀ c, HMACTSig.init hl (.bytes key) HMAC_SHA512_256 = .ok c →
      (feedAll c chunks).sign = (hl.sha512.mac key (feedAll c chunks).data).take 32 ∧
      (feedAll c chunks).sign.length = 32) ∧
    (∀ c, HMACTSig.init hl (.bytes key) HMAC_SHA1 = .ok c →
      (feedAll c chunks).sign = hl.sha1.mac key (feedAll c chunks).data ∧
      (feedAll c chunks).sign.length = hl.sha1.digest_size) ∧
    (∀ c, HMACTSig.init hl (.bytes key) HMAC_SHA224 = .ok c →
      (feedAll c chunks).sign = hl.sha224.mac key (feedAll c chunks).data ∧
      (feedAll c chunks).sign.length = hl.sha224.digest_size) ∧
    (∀ c, HMACTSig.init hl (.bytes key) HMAC_SHA256 = .ok c →
      (feedAll c chunks).sign = hl.sha256.mac key (feedAll c chunks).data ∧
      (feedAll c chunks).sign.length = hl.sha256.digest_size) ∧
    (∀ c, HMACTSig.init hl (.bytes key) HMAC_SHA384 = .ok c →
      (feedAll c chunks).sign = hl.sha384.mac key (feedAll c chunks).data ∧
      (feedAll c chunks).sign.length = hl.sha384.digest_size) ∧
    (∀ c, HMACTSig.init hl (.bytes key) HMAC_SHA512 = .ok c →
      (feedAll c chunks).sign = hl.sha512.mac key (feedAll c chunks).data ∧
      (feedAll c chunks).sign.length = hl.sha512.digest_size) ∧
    (∀ c, HMACTSig.init hl (.bytes key) HMAC_MD5 = .ok c →
      (feedAll c chunks).sign = hl.md5.mac key (feedAll c chunks).data ∧
      (feedAll c chunks).sign.length = hl.md5.digest_size) := by
  have trunc : ∀ (alg : Name) (p : HashFn) (s : Nat),
      hashLookup hl alg = some (p, some s) → s ≠ 0 →
      ∀ c, HMACTSig.init hl (.bytes key) alg = .ok c →
      (feedAll c chunks).sign = (p.mac key (feedAll c chunks).data).take (s / 8) ∧
      (feedAll c chunks).sign.length = min (s / 8) p.digest_size := by
    intro alg p s hlook hs0 c hc
    have hc' := init_ok hl key alg p (some s) hlook c hc
    subst hc'
    obtain ⟨hf, hs, hk⟩ := HMACTSig.feed_hashFn
      { hashFn := p, size := some s, key := key, data := [] } chunks
    have hsg := sign_trunc _ p s hf hs hs0
    rw [hk] at hsg
    refine ⟨hsg, ?_⟩
    rw [hsg, List.length_take, p.len_law]
  have full : ∀ (alg : Name) (p : HashFn),
      hashLookup hl alg = some (p, none) →
      ∀ c, HMACTSig.init hl (.bytes key) alg = .ok c →
      (feedAll c chunks).sign = p.mac key (feedAll c chunks).data ∧
      (feedAll c chunks).sign.length = p.digest_size := by
    intro alg p hlook c hc
    have hc' := init_ok hl key alg p none hlook c hc
    subst hc'
    obtain ⟨hf, hs, hk⟩ := HMACTSig.feed_hashFn
      { hashFn := p, size := none, key := key, data := [] } chunks
    have hsg := sign_full _ p hf hs
    rw [hk] at hsg
    exact ⟨hsg, by rw [hsg, p.len_law]⟩
  refine ⟨fun c hc => ?_, fun c hc => ?_, fun c hc => ?_,
    full HMAC_SHA1 hl.sha1 rfl, full HMAC_SHA224 hl.sha224 rfl,
    full HMAC_SHA256 hl.sha256 rfl, full HMAC_SHA384 hl.sha384 rfl,
    full HMAC_SHA512 hl.sha512 rfl, full HMAC_MD5 hl.md5 rfl⟩
  · have := trunc HMAC_SHA256_128 hl.sha256 128 rfl (by norm_num) c hc
    rw [h256] at this
    simpa using this
  · have := trunc HMAC_SHA384_192 hl.sha384 192 rfl (by norm_num) c hc
    rw [h384] at this
    simpa using this
  · have := trunc HMAC_SHA512_256 hl.sha512 256 rfl (by norm_num) c hc
    rw [h512] at this
    simpa using this

theorem hmac_sign_lengths_witness :
    (hashlib0.sha256.digest_size = 32 ∧ hashlib0.sha384.digest_size = 48 ∧
      hashlib0.sha512.digest_size = 64 ∧
      HMACTSig.init hashlib0 (.bytes [5]) HMAC_SHA256_128 = .ok c6w) ∧
    (feedAll c6w [[7]]).sign.length = 16 :=
  ⟨⟨rfl, rfl, rfl, rfl⟩,
   ((hmac_sign_lengths hashlib0 [5] [[7]] rfl rfl rfl).1 c6w rfl).2⟩

/-- C9 counterexample: an exception of the injected security context
raised while the GSS engine signs propagates out of the engine as-is
(as the foreign exception tagged 7), not as `BadSignature`. -/
theorem gss_sign_fault_propagates :
    GSSTSig.sign (GSSTSig.init (.gss badGssCtx)) = .error (.pyExc 7) ∧
    PyErr.pyExc 7 ≠ PyErr.badSignature :=
  ⟨rfl, by decide⟩

/-- C9 (amended): any exception of the security context raised during
`verify` is normalized to `BadSignature` — `verify` only ever returns
success or `BadSignature` — but an exception raised during `sign`
propagates out of the engine unchanged. -/
theorem gss_verify_normalizes (g : GSSTSig) (expected : List Nat) :
    (GSSTSig.verify g expected = .ok () ∨
      GSSTSig.verify g expected = .error .badSignature) ∧
    (∀ e : Nat, ∀ c : GssContext, g.gssapi_context = .gss c →
      (c.verify_signature g.data expected = .error e →
        GSSTSig.verify g expected = .error .badSignature) ∧
      (c.get_signature g.data = .error e →
        GSSTSig.sign g = .error (.pyExc e))) := by
  constructor
  · cases hctx : g.gssapi_context with
    | bytes b => right; simp [GSSTSig.verify, hctx]
    | gss c =>
        cases hv : c.verify_signature g.data expected with
        | ok u => left; simp [GSSTSig.verify, hctx, hv]
        | error e => right; simp [GSSTSig.verify, hctx, hv]
  · intro e c hctx
    constructor
    · intro hv
      simp [GSSTSig.verify, hctx, hv]
    · intro hs
      simp [GSSTSig.sign, hctx, hs]

theorem gss_verify_normalizes_witness :
    (gss9.gssapi_context = .gss badGssCtx ∧
      badGssCtx.verify_signature gss9.data [] = .error 7 ∧
      badGssCtx.get_signature gss9.data = .error 7) ∧
    GSSTSig.verify gss9 [] = .error .badSignature ∧
    GSSTSig.sign gss9 = .error (.pyExc 7) :=
  ⟨⟨rfl, rfl, rfl⟩,
   ((gss_verify_normalizes gss9 []).2 7 badGssCtx rfl).1 rfl,
   ((gss_verify_normalizes gss9 []).2 7 badGssCtx rfl).2 rfl⟩

/-- C2 counterexample: constructing a `Key` with the unrecognized
algorithm name `hmac-sha999` succeeds — no construction-time check —
and `sign` called with that successfully constructed key then fails
with the unsupported-algorithm error (`NotImplementedError`). -/
theorem key_init_no_algorithm_check :
    Key.init name0 (.bytes [1, 2]) badAlg0 =
      { name := name0, secret := .bytes [1, 2], algorithm := badAlg0 } ∧
    sign hashlib0 wire0 (Key.init name0 (.bytes [1, 2]) badAlg0) rdata0
      (some 0) none none false = .error .notImplementedError :=
  ⟨rfl, rfl⟩

/-- C2 (amended): `Key` construction (on pre-parsed name, secret and
algorithm) always succeeds and stores the fields unvalidated; for an
algorithm name outside the supported table (and distinct from
`gss-tsig`), the unsupported-algorithm error is raised only when an
engine is created for the key — so `sign` fails then with
`NotImplementedError`. -/
theorem key_init_total_unsupported_at_sign (name : Name) (secret : Secret)
    (alg : Name) (hl : Hashlib) (wire : List Nat) (rdata : TSIGRdata)
    (time : Option Nat) (rm : Option (List Nat))
    (hlook : hashLookup hl alg = none) (hgss : alg ≠ GSS_TSIG) :
    Key.init name secret alg =
      { name := name, secret := secret, algorithm := alg } ∧
    get_context hl (Key.init name secret alg) = .error .notImplementedError ∧
    sign hl wire (Key.init name secret alg) rdata time rm none false =
      .error .notImplementedError := by
  have hgc : get_context hl (Key.init name secret alg) =
      .error .notImplementedError := by
    simp only [get_context, Key.init, HMACTSig.init, hlook]
    simp [hgss]
  refine ⟨rfl, hgc, ?_⟩
  simp only [sign, _digest, Option.isSome_none, Bool.false_and, Bool.not_false,
    if_true, hgc, exceptBindErr]

theorem key_init_total_unsupported_at_sign_witness :
    (hashLookup hashlib0 badAlg0 = none ∧ badAlg0 ≠ GSS_TSIG) ∧
    sign hashlib0 wire0 (Key.init name0 (.bytes [3]) badAlg0) rdata0 none
      none none false = .error .notImplementedError :=
  ⟨⟨rfl, by decide⟩,
   (key_init_total_unsupported_at_sign name0 (.bytes [3]) badAlg0 hashlib0
     wire0 rdata0 none none rfl (by decide)).2.2⟩

/-- C10: a supplied digest context is used as a continuation only when
`multi` is true — when `multi` is false or no context is supplied, the
passed context is ignored by `_digest`, `sign` and `validate`: each
behaves exactly as with no context, creating a fresh engine for the key
and digesting the message as a first message. -/
theorem ctx_ignored_without_multi (hl : Hashlib) (wire : List Nat) (key : Key)
    (rdata : TSIGRdata) (time : Option Nat) (rm : Option (List Nat))
    (owner : Name) (now : Nat) (tsig_start : Nat) (ctx : Option TsigCtx)
    (multi : Bool) (h : multi = false ∨ ctx = none) :
    _digest hl wire key rdata time rm ctx multi =
      _digest hl wire key rdata time rm none false ∧
    sign hl wire key rdata time rm ctx multi =
      sign hl wire key rdata time rm none multi ∧
    validate hl wire key owner rdata now rm tsig_start ctx multi =
      validate hl wire key owner rdata now rm tsig_start none multi := by
  have hdig : ∀ (w : List Nat) (ti : Option Nat) (m2 : Bool) (c2 : Option TsigCtx),
      (m2 = false ∨ c2 = none) →
      _digest hl w key rdata ti rm c2 m2 = _digest hl w key rdata ti rm none false := by
    rintro w ti m2 c2 (rfl | rfl)
    · cases c2 <;> rfl
    · cases m2 <;> rfl
  have hv : ∀ (w : List Nat) (ti : Option Nat),
      _digest hl w key rdata ti rm ctx multi = _digest hl w key rdata ti rm none multi :=
    fun w ti => (hdig w ti multi ctx h).trans (hdig w ti multi none (Or.inr rfl)).symm
  refine ⟨hdig wire time multi ctx h, ?_, ?_⟩
  · simp only [sign, hv]
  · simp only [validate, hv]

theorem ctx_ignored_without_multi_witness :
    (false = false ∨ (some (TsigCtx.hmac hctx0) : Option TsigCtx) = none) ∧
    _digest hashlib0 wire0 key0 rdata0 none none (some (.hmac hctx0)) false =
      _digest hashlib0 wire0 key0 rdata0 none none none false :=
  ⟨Or.inl rfl,
   (ctx_ignored_without_multi hashlib0 wire0 key0 rdata0 none none name0 0 12
     (some (.hmac hctx0)) false (Or.inl rfl)).1⟩

theorem digest_cont_eq (hl : Hashlib) (wire : List Nat) (key : Key)
    (rdata : TSIGRdata) (time : Option Nat) (rm : Option (List Nat))
    (c : TsigCtx) (t : Nat) (hid : rdata.original_id < 65536)
    (hfudge : rdata.fudge < 65536) (hother : rdata.other.length ≤ 65535)
    (ht : time = some t ∨ (time = none ∧ rdata.time_signed = some t)) :
    _digest hl wire key rdata time rm (some c) true =
      .ok (c.update (pack16 rdata.original_id ++ wire.drop 2 ++
        timeEncoded t rdata.fudge)) := by
  have hupper : (t >>> 32) % 65536 < 65536 := Nat.mod_lt _ (by norm_num)
  have hlower : t % 4294967296 < 4294967296 := Nat.mod_lt _ (by norm_num)
  have hnot : ¬ rdata.other.length > 65535 := by omega
  rcases ht with rfl | ⟨rfl, ht2⟩
  · simp [_digest, packH_in hid, packH_in hupper, packI_in hlower,
      packH_in hfudge, hnot, timeEncoded, exceptBindOk, exceptBindErr,
      TsigCtx.update_update, List.append_assoc]
  · simp [_digest, packH_in hid, packH_in hupper, packI_in hlower,
      packH_in hfudge, hnot, ht2, timeEncoded, exceptBindOk, exceptBindErr,
      TsigCtx.update_update, List.append_assoc]

theorem digest_first_eq (hl : Hashlib) (wire : List Nat) (key : Key)
    (rdata : TSIGRdata) (time : Option Nat) (rm : Option (List Nat))
    (c0 : TsigCtx) (t : Nat) (hgc : get_context hl key = .ok c0)
    (hid : rdata.original_id < 65536) (hfudge : rdata.fudge < 65536)
    (hother : rdata.other.length ≤ 65535) (herr : rdata.error < 65536)
    (hrm : macTruthy rm = true → (rm.getD []).length < 65536)
    (ht : time = some t ∨ (time = none ∧ rdata.time_signed = some t)) :
    _digest hl wire key rdata time rm none false =
      .ok (c0.update (rmBlock rm ++ pack16 rdata.original_id ++ wire.drop 2 ++
        key.name.to_digestable ++ pack16 rdataclassANY ++ pack32 0 ++
        key.algorithm.to_digestable ++ timeEncoded t rdata.fudge ++
        pack16 rdata.error ++ pack16 rdata.other.length ++ rdata.other)) := by
  have hupper : (t >>> 32) % 65536 < 65536 := Nat.mod_lt _ (by norm_num)
  have hlower : t % 4294967296 < 4294967296 := Nat.mod_lt _ (by norm_num)
  have hany : packH rdataclassANY = .ok (pack16 rdataclassANY) :=
    packH_in (by norm_num [rdataclassANY])
  have hzero : packI 0 = .ok (pack32 0) := packI_in (by norm_num)
  have hnot : ¬ rdata.other.length > 65535 := by omega
  cases hm : macTruthy rm with
  | true =>
      rcases ht with rfl | ⟨rfl, ht2⟩
      · simp [_digest, hgc, hm, packH_in (hrm hm), packH_in hid,
          packH_in hupper, packI_in hlower, packH_in hfudge, packH_in herr,
          packH_in (by omega : rdata.other.length < 65536), hany, hzero,
          hnot, timeEncoded, rmBlock, exceptBindOk, exceptBindErr,
          TsigCtx.update_update, List.append_assoc]
      · simp [_digest, hgc, hm, packH_in (hrm hm), packH_in hid,
          packH_in hupper, packI_in hlower, packH_in hfudge, packH_in herr,
          packH_in (by omega : rdata.other.length < 65536), hany, hzero,
          hnot, ht2, timeEncoded, rmBlock, exceptBindOk, exceptBindErr,
          TsigCtx.update_update, List.append_assoc]
  | false =>
      rcases ht with rfl | ⟨rfl, ht2⟩
      · simp [_digest, hgc, hm, packH_in hid, packH_in hupper,
          packI_in hlower, packH_in hfudge, packH_in herr,
          packH_in (by omega : rdata.other.length < 65536), hany, hzero,
          hnot, timeEncoded, rmBlock, exceptBindOk, exceptBindErr,
          TsigCtx.update_update, List.append_assoc]
      · simp [_digest, hgc, hm, packH_in hid, packH_in hupper,
          packI_in hlower, packH_in hfudge, packH_in herr,
          packH_in (by omega : rdata.other.length < 65536), hany, hzero,
          hnot, ht2, timeEncoded, rmBlock, exceptBindOk, exceptBindErr,
          TsigCtx.update_update, List.append_assoc]

/-- C3: on a continuation message (open context supplied together with
`multi`), exactly the message-ID-substituted wire bytes and the
timestamp block are fed to the engine — the request-MAC, key name,
class ANY, zero TTL, algorithm, error and other-data block are not
repeated; on a first message all fields are fed in that order. -/
theorem digest_continuation_vs_first (hl : Hashlib) (wire : List Nat)
    (key : Key) (rdata : TSIGRdata) (time : Option Nat)
    (rm : Option (List Nat)) (t : Nat) (hid : rdata.original_id < 65536)
    (hfudge : rdata.fudge < 65536) (hother : rdata.other.length ≤ 65535)
    (herr : rdata.error < 65536)
    (hrm : macTruthy rm = true → (rm.getD []).length < 65536)
    (ht : time = some t ∨ (time = none ∧ rdata.time_signed = some t)) :
    (∀ c : TsigCtx, _digest hl wire key rdata time rm (some c) true =
      .ok (c.update (pack16 rdata.original_id ++ wire.drop 2 ++
        timeEncoded t rdata.fudge))) ∧
    (∀ c0 : TsigCtx, get_context hl key = .ok c0 →
      _digest hl wire key rdata time rm none false =
      .ok (c0.update (rmBlock rm ++ pack16 rdata.original_id ++ wire.drop 2 ++
        key.name.to_digestable ++ pack16 rdataclassANY ++ pack32 0 ++
        key.algorithm.to_digestable ++ timeEncoded t rdata.fudge ++
        pack16 rdata.error ++ pack16 rdata.other.length ++ rdata.other))) :=
  ⟨fun c => digest_cont_eq hl wire key rdata time rm c t hid hfudge hother ht,
   fun c0 hgc => digest_first_eq hl wire key rdata time rm c0 t hgc hid hfudge
     hother herr hrm ht⟩

theorem digest_continuation_vs_first_witness :
    (rdata0.original_id < 65536 ∧ rdata0.fudge < 65536 ∧
      rdata0.other.length ≤ 65535 ∧ rdata0.error < 65536) ∧
    _digest hashlib0 wire0 key0 rdata0 (some 5) none (some (.hmac hctx0))
        true =
      .ok ((TsigCtx.hmac hctx0).update (pack16 rdata0.original_id ++
        wire0.drop 2 ++ timeEncoded 5 rdata0.fudge)) :=
  ⟨⟨by decide, by decide, by decide, by decide⟩,
   (digest_continuation_vs_first hashlib0 wire0 key0 rdata0 (some 5) none 5
     (by decide) (by decide) (by decide) (by decide)
     (fun hm => absurd hm (by decide)) (Or.inl rfl)).1 (.hmac hctx0)⟩

theorem exceptBindNe {α β : Type} {x : Except PyErr α} {f : α → Except PyErr β}
    {bad : PyErr} (hx : x ≠ .error bad) (hf : ∀ a, f a ≠ .error bad) :
    x >>= f ≠ .error bad := by
  cases x with
  | error e => simpa [exceptBindErr] using hx
  | ok a => simpa [exceptBindOk] using hf a

theorem packH_neBadTime (n : Nat) : packH n ≠ .error .badTime := by
  unfold packH; split <;> simp

theorem packI_neBadTime (n : Nat) : packI n ≠ .error .badTime := by
  unfold packI; split <;> simp

theorem init_err_cases (hl : Hashlib) (s : Secret) (a : Name) (e : PyErr)
    (h : HMACTSig.init hl s a = .error e) :
    e = .notImplementedError ∨ e = .typeError := by
  unfold HMACTSig.init at h
  split at h
  · injection h with h'; exact Or.inl h'.symm
  · split at h
    · simp at h
    · injection h with h'; exact Or.inr h'.symm

theorem get_context_neBadTime (hl : Hashlib) (key : Key) :
    get_context hl key ≠ .error .badTime := by
  unfold get_context
  split
  · simp
  · cases hi : HMACTSig.init hl key.secret key.algorithm with
    | ok h => simp [hi]
    | error e =>
        simp only [hi]
        rcases init_err_cases hl key.secret key.algorithm e hi with rfl | rfl <;>
          simp

theorem verifyMac_neBadTime (c : TsigCtx) (m : List Nat) :
    TsigCtx.verifyMac c m ≠ .error .badTime := by
  cases c with
  | hmac h =>
      show HMACTSig.verify h m ≠ _
      unfold HMACTSig.verify
      split <;> simp
  | gss g =>
      show GSSTSig.verify g m ≠ _
      unfold GSSTSig.verify
      split
      · split <;> simp
      · simp

theorem maybe_start_neBadTime (hl : Hashlib) (key : Key) (mac : List Nat)
    (multi : Bool) : _maybe_start_digest hl key mac multi ≠ .error .badTime := by
  unfold _maybe_start_digest
  split
  · apply exceptBindNe (get_context_neBadTime hl key)
    intro c
    apply exceptBindNe (packH_neBadTime _)
    intro lenb
    simp
  · simp

theorem digest_neBadTime (hl : Hashlib) (wire : List Nat) (key : Key)
    (rdata : TSIGRdata) (time : Option Nat) (rm : Option (List Nat))
    (ctx : Option TsigCtx) (multi : Bool) :
    _digest hl wire key rdata time rm ctx multi ≠ .error .badTime := by
  unfold _digest
  apply exceptBindNe
  · split
    · exact get_context_neBadTime hl key
    · split
      · simp
      · exact get_context_neBadTime hl key
  intro c
  apply exceptBindNe
  · split
    · apply exceptBindNe (packH_neBadTime _)
      intro lenb
      simp
    · simp
  intro c
  apply exceptBindNe (packH_neBadTime _)
  intro idb
  apply exceptBindNe
  · split
    · apply exceptBindNe (packH_neBadTime _)
      intro anyb
      apply exceptBindNe (packI_neBadTime _)
      intro ttlb
      simp
    · simp
  intro c
  apply exceptBindNe
  · split
    · simp
    · split <;> simp [throw, throwThe, MonadExceptOf.throw]
  intro t
  apply exceptBindNe (packH_neBadTime _)
  intro ub
  apply exceptBindNe (packI_neBadTime _)
  intro lb
  apply exceptBindNe (packH_neBadTime _)
  intro fb
  apply exceptBindNe
  · split <;> simp [throw, throwThe, MonadExceptOf.throw]
  intro u
  split
  · apply exceptBindNe (packH_neBadTime _)
    intro eb
    apply exceptBindNe (packH_neBadTime _)
    intro ob
    simp
  · simp

theorem validate_formError (hl : Hashlib) (wire : List Nat) (key : Key)
    (owner : Name) (rdata : TSIGRdata) (now : Nat) (rm : Option (List Nat))
    (tsig_start : Nat) (ctx : Option TsigCtx) (multi : Bool)
    (hw : 12 ≤ wire.length) (h0 : adcountOf wire = 0) :
    validate hl wire key owner rdata now rm tsig_start ctx multi =
      .error .formError := by
  simp [validate, Nat.not_lt.mpr hw, h0]

theorem error_peerErrFor (e : Nat) :
    (if e = BADSIG then
       (Except.error PyErr.peerBadSignature : Except PyErr (Option TsigCtx))
     else if e = BADKEY then .error .peerBadKey
     else if e = BADTIME then .error .peerBadTime
     else if e = BADTRUNC then .error .peerBadTruncation
     else .error (.peerError e)) = .error (peerErrFor e) := by
  simp only [peerErrFor]
  split_ifs <;> rfl

theorem validate_peer (hl : Hashlib) (wire : List Nat) (key : Key)
    (owner : Name) (rdata : TSIGRdata) (now : Nat) (rm : Option (List Nat))
    (tsig_start : Nat) (ctx : Option TsigCtx) (multi : Bool)
    (hw : 12 ≤ wire.length) (h0 : adcountOf wire ≠ 0)
    (hb : adcountOf wire - 1 < 65536) (he : rdata.error ≠ 0) :
    validate hl wire key owner rdata now rm tsig_start ctx multi =
      .error (peerErrFor rdata.error) := by
  simp only [validate, Nat.not_lt.mpr hw, if_false, h0, packH_in hb,
    exceptBindOk, he, if_true, ite_not]
  exact error_peerErrFor rdata.error

theorem validate_badTime_eval (hl : Hashlib) (wire : List Nat) (key : Key)
    (owner : Name) (rdata : TSIGRdata) (now : Nat) (rm : Option (List Nat))
    (tsig_start : Nat) (ctx : Option TsigCtx) (multi : Bool) (t : Nat)
    (hw : 12 ≤ wire.length) (h0 : adcountOf wire ≠ 0)
    (hb : adcountOf wire - 1 < 65536) (he : rdata.error = 0)
    (ht : rdata.time_signed = some t) (hsk : absDiff t now > rdata.fudge) :
    validate hl wire key owner rdata now rm tsig_start ctx multi =
      .error .badTime := by
  simp [validate, Nat.not_lt.mpr hw, h0, packH_in hb, exceptBindOk, he, ht,
    hsk]

theorem validate_badKey_eval (hl : Hashlib) (wire : List Nat) (key : Key)
    (owner : Name) (rdata : TSIGRdata) (now : Nat) (rm : Option (List Nat))
    (tsig_start : Nat) (ctx : Option TsigCtx) (multi : Bool) (t : Nat)
    (hw : 12 ≤ wire.length) (h0 : adcountOf wire ≠ 0)
    (hb : adcountOf wire - 1 < 65536) (he : rdata.error = 0)
    (ht : rdata.time_signed = some t) (hsk : ¬ absDiff t now > rdata.fudge)
    (hown : key.name ≠ owner) :
    validate hl wire key owner rdata now rm tsig_start ctx multi =
      .error .badKey := by
  simp [validate, Nat.not_lt.mpr hw, h0, packH_in hb, exceptBindOk, he, ht,
    hsk, hown]

theorem validate_badAlgorithm_eval (hl : Hashlib) (wire : List Nat) (key : Key)
    (owner : Name) (rdata : TSIGRdata) (now : Nat) (rm : Option (List Nat))
    (tsig_start : Nat) (ctx : Option TsigCtx) (multi : Bool) (t : Nat)
    (hw : 12 ≤ wire.length) (h0 : adcountOf wire ≠ 0)
    (hb : adcountOf wire - 1 < 65536) (he : rdata.error = 0)
    (ht : rdata.time_signed = some t) (hsk : ¬ absDiff t now > rdata.fudge)
    (hown : key.name = owner) (halg : key.algorithm ≠ rdata.algorithm) :
    validate hl wire key owner rdata now rm tsig_start ctx multi =
      .error .badAlgorithm := by
  simp [validate, Nat.not_lt.mpr hw, h0, packH_in hb, exceptBindOk, he, ht,
    hsk, hown, halg]

theorem validate_tail_eval (hl : Hashlib) (wire : List Nat) (key : Key)
    (owner : Name) (rdata : TSIGRdata) (now : Nat) (rm : Option (List Nat))
    (tsig_start : Nat) (ctx : Option TsigCtx) (multi : Bool) (t : Nat)
    (hw : 12 ≤ wire.length) (h0 : adcountOf wire ≠ 0)
    (hb : adcountOf wire - 1 < 65536) (he : rdata.error = 0)
    (ht : rdata.time_signed = some t) (hsk : ¬ absDiff t now > rdata.fudge)
    (hown : key.name = owner) (halg : key.algorithm = rdata.algorithm) :
    validate hl wire key owner rdata now rm tsig_start ctx multi =
      (_digest hl (new_wireOf wire tsig_start) key rdata none rm ctx multi >>=
        fun c => TsigCtx.verifyMac c rdata.mac >>= fun _ =>
          _maybe_start_digest hl key rdata.mac multi) := by
  simp [validate, Nat.not_lt.mpr hw, h0, packH_in hb, exceptBindOk, he, ht,
    hsk, hown, halg, new_wireOf]

/-- C1: `validate` performs its checks in this exact order, the first
failing check raising its error: additional count ≥ 1 (else
malformed-message), peer error code — mapped to the matching peer error
and raised before any digest computation, whatever the MAC field
holds —, time skew, owner name versus key name, algorithm versus key
algorithm, and finally MAC verification. -/
theorem validate_check_order (hl : Hashlib) (wire : List Nat) (key : Key)
    (owner : Name) (rdata : TSIGRdata) (now : Nat) (rm : Option (List Nat))
    (tsig_start : Nat) (ctx : Option TsigCtx) (multi : Bool)
    (hw : 12 ≤ wire.length) (h10 : wire.getD 10 0 < 256)
    (h11 : wire.getD 11 0 < 256) :
    (adcountOf wire = 0 →
      validate hl wire key owner rdata now rm tsig_start ctx multi =
        .error .formError) ∧
    (adcountOf wire ≠ 0 → rdata.error ≠ 0 →
      validate hl wire key owner rdata now rm tsig_start ctx multi =
        .error (peerErrFor rdata.error)) ∧
    (∀ t, adcountOf wire ≠ 0 → rdata.error = 0 →
      rdata.time_signed = some t → absDiff t now > rdata.fudge →
      validate hl wire key owner rdata now rm tsig_start ctx multi =
        .error .badTime) ∧
    (∀ t, adcountOf wire ≠ 0 → rdata.error = 0 →
      rdata.time_signed = some t → ¬ absDiff t now > rdata.fudge →
      key.name ≠ owner →
      validate hl wire key owner rdata now rm tsig_start ctx multi =
        .error .badKey) ∧
    (∀ t, adcountOf wire ≠ 0 → rdata.error = 0 →
      rdata.time_signed = some t → ¬ absDiff t now > rdata.fudge →
      key.name = owner → key.algorithm ≠ rdata.algorithm →
      validate hl wire key owner rdata now rm tsig_start ctx multi =
        .error .badAlgorithm) ∧
    (∀ t, adcountOf wire ≠ 0 → rdata.error = 0 →
      rdata.time_signed = some t → ¬ absDiff t now > rdata.fudge →
      key.name = owner → key.algorithm = rdata.algorithm →
      validate hl wire key owner rdata now rm tsig_start ctx multi =
        (_digest hl (new_wireOf wire tsig_start) key rdata none rm ctx multi
          >>= fun c => TsigCtx.verifyMac c rdata.mac >>= fun _ =>
            _maybe_start_digest hl key rdata.mac multi)) := by
  have hb : adcountOf wire - 1 < 65536 := by unfold adcountOf; omega
  refine ⟨fun h0 =>
      validate_formError hl wire key owner rdata now rm tsig_start ctx multi
        hw h0,
    fun h0 he =>
      validate_peer hl wire key owner rdata now rm tsig_start ctx multi hw h0
        hb he,
    fun t h0 he ht hsk =>
      validate_badTime_eval hl wire key owner rdata now rm tsig_start ctx
        multi t hw h0 hb he ht hsk,
    fun t h0 he ht hsk hown =>
      validate_badKey_eval hl wire key owner rdata now rm tsig_start ctx
        multi t hw h0 hb he ht hsk hown,
    fun t h0 he ht hsk hown halg =>
      validate_badAlgorithm_eval hl wire key owner rdata now rm tsig_start
        ctx multi t hw h0 hb he ht hsk hown halg,
    fun t h0 he ht hsk hown halg =>
      validate_tail_eval hl wire key owner rdata now rm tsig_start ctx multi
        t hw h0 hb he ht hsk hown halg⟩

theorem validate_check_order_witness :
    (12 ≤ wireV.length ∧ wireV.getD 10 0 < 256 ∧ wireV.getD 11 0 < 256 ∧
      adcountOf wireV ≠ 0 ∧ rdataPeer.error ≠ 0 ∧ rdataPeer.mac = []) ∧
    validate hashlib0 wireV key0 name0 rdataPeer 0 none 12 none false =
      .error .peerBadKey :=
  ⟨⟨by decide, by decide, by decide, by decide, by decide, rfl⟩,
   ((validate_check_order hashlib0 wireV key0 name0 rdataPeer 0 none 12 none
       false (by decide) (by decide) (by decide)).2.1 (by decide)
     (by decide)).trans rfl⟩

/-- C7: given the additional-count and peer-error checks pass,
`validate` raises bad-time exactly when the absolute difference between
the signing time and `now` strictly exceeds the fudge — so `now`
exactly `fudge` from the signing time passes the time check, and one
second beyond raises bad-time. -/
theorem validate_badTime_iff (hl : Hashlib) (wire : List Nat) (key : Key)
    (owner : Name) (rdata : TSIGRdata) (now : Nat) (rm : Option (List Nat))
    (tsig_start : Nat) (ctx : Option TsigCtx) (multi : Bool) (t : Nat)
    (hw : 12 ≤ wire.length) (h10 : wire.getD 10 0 < 256)
    (h11 : wire.getD 11 0 < 256) (had : adcountOf wire ≠ 0)
    (herr : rdata.error = 0) (ht : rdata.time_signed = some t) :
    validate hl wire key owner rdata now rm tsig_start ctx multi =
      .error .badTime ↔ absDiff t now > rdata.fudge := by
  have hb : adcountOf wire - 1 < 65536 := by unfold adcountOf; omega
  constructor
  · intro hv
    by_contra hsk
    by_cases hown : key.name = owner
    · by_cases halg : key.algorithm = rdata.algorithm
      · rw [validate_tail_eval hl wire key owner rdata now rm tsig_start ctx
          multi t hw had hb herr ht hsk hown halg] at hv
        exact exceptBindNe
          (digest_neBadTime hl (new_wireOf wire tsig_start) key rdata none rm
            ctx multi)
          (fun c => exceptBindNe (verifyMac_neBadTime c rdata.mac)
            (fun _ => maybe_start_neBadTime hl key rdata.mac multi)) hv
      · rw [validate_badAlgorithm_eval hl wire key owner rdata now rm
          tsig_start ctx multi t hw had hb herr ht hsk hown halg] at hv
        simp at hv
    · rw [validate_badKey_eval hl wire key owner rdata now rm tsig_start ctx
        multi t hw had hb herr ht hsk hown] at hv
      simp at hv
  · exact validate_badTime_eval hl wire key owner rdata now rm tsig_start ctx
      multi t hw had hb herr ht

theorem validate_badTime_iff_witness :
    (12 ≤ wireV.length ∧ wireV.getD 10 0 < 256 ∧ wireV.getD 11 0 < 256 ∧
      adcountOf wireV ≠ 0 ∧ rdataTime.error = 0 ∧
      rdataTime.time_signed = some 100 ∧ absDiff 100 111 > rdataTime.fudge) ∧
    validate hashlib0 wireV key0 name0 rdataTime 111 none 12 none false =
      .error .badTime :=
  ⟨⟨by decide, by decide, by decide, by decide, by decide, rfl, by decide⟩,
   (validate_badTime_iff hashlib0 wireV key0 name0 rdataTime 111 none 12 none
     false 100 (by decide) (by decide) (by decide) (by decide) (by decide)
     rfl).mpr (by decide)⟩

theorem reconstruct_wire (wire : List Nat) (hw : 12 ≤ wire.length) :
    wire.take 10 ++ [wire.getD 10 0, wire.getD 11 0] ++ wire.drop 12 =
      wire := by
  have h10l : (10 : Nat) < wire.length := by omega
  have h11l : (11 : Nat) < wire.length := by omega
  have e10 : wire[10]? = some (wire.getD 10 0) := by
    rw [List.getElem?_eq_getElem h10l, List.getD_eq_getElem wire 0 h10l]
  have e11 : wire[11]? = some (wire.getD 11 0) := by
    rw [List.getElem?_eq_getElem h11l, List.getD_eq_getElem wire 0 h11l]
  have h1 : wire.take 12 = wire.take 10 ++ [wire.getD 10 0, wire.getD 11 0] := by
    rw [show (12 : Nat) = 11 + 1 from rfl, List.take_succ, e11,
      show (11 : Nat) = 10 + 1 from rfl, List.take_succ, e10]
    simp
  conv_rhs => rw [← List.take_append_drop 12 wire]
  rw [h1, List.append_assoc]

theorem pack16_adcount (wire : List Nat) (_h10 : wire.getD 10 0 < 256)
    (h11 : wire.getD 11 0 < 256) :
    pack16 (adcountOf wire) = [wire.getD 10 0, wire.getD 11 0] := by
  have e1 : (wire.getD 10 0 * 256 + wire.getD 11 0) / 256 = wire.getD 10 0 := by
    omega
  have e2 : (wire.getD 10 0 * 256 + wire.getD 11 0) % 256 = wire.getD 11 0 := by
    omega
  unfold pack16 adcountOf
  rw [e1, e2]

theorem withTsig_facts (wire extra : List Nat) (hw : 12 ≤ wire.length)
    (h10 : wire.getD 10 0 < 256) (h11 : wire.getD 11 0 < 256) :
    12 ≤ (withTsig wire extra).length ∧
    (withTsig wire extra).getD 10 0 = (adcountOf wire + 1) / 256 ∧
    (withTsig wire extra).getD 11 0 = (adcountOf wire + 1) % 256 ∧
    adcountOf (withTsig wire extra) = adcountOf wire + 1 ∧
    new_wireOf (withTsig wire extra) wire.length = wire := by
  have hlen10 : (wire.take 10).length = 10 := by
    simp [List.length_take]; omega
  have hlenp : (pack16 (adcountOf wire + 1)).length = 2 := by simp [pack16]
  have hbodylen :
      (wire.take 10 ++ pack16 (adcountOf wire + 1) ++ wire.drop 12).length =
        wire.length := by
    simp [hlen10, hlenp]; omega
  have hreassoc : withTsig wire extra =
      wire.take 10 ++ (pack16 (adcountOf wire + 1) ++ (wire.drop 12 ++ extra)) := by
    rw [withTsig, List.append_assoc, List.append_assoc]
  have hg10 : (withTsig wire extra).getD 10 0 = (adcountOf wire + 1) / 256 := by
    rw [hreassoc,
      List.getD_append_right _ _ _ _ (by omega : (wire.take 10).length ≤ 10)]
    simp [hlen10, pack16, List.getD]
  have hg11 : (withTsig wire extra).getD 11 0 = (adcountOf wire + 1) % 256 := by
    rw [hreassoc,
      List.getD_append_right _ _ _ _ (by omega : (wire.take 10).length ≤ 11)]
    simp [hlen10, pack16, List.getD]
  have hlen : 12 ≤ (withTsig wire extra).length := by
    rw [withTsig]
    simp [hlen10, hlenp]
    omega
  have hadcount : adcountOf (withTsig wire extra) = adcountOf wire + 1 := by
    rw [adcountOf, hg10, hg11]
    omega
  refine ⟨hlen, hg10, hg11, hadcount, ?_⟩
  rw [new_wireOf, hadcount, Nat.add_sub_cancel, pack16_adcount wire h10 h11]
  have htake10 : (withTsig wire extra).take 10 = wire.take 10 := by
    rw [withTsig,
      List.take_append_of_le_length (by simp [hlen10, hlenp] : 10 ≤ _),
      List.take_append_of_le_length (by simp [hlen10, hlenp] : 10 ≤ _),
      List.take_append_of_le_length (by omega : 10 ≤ (wire.take 10).length),
      List.take_take]
    simp
  have htakelen : (withTsig wire extra).take wire.length =
      wire.take 10 ++ pack16 (adcountOf wire + 1) ++ wire.drop 12 :=
    List.take_left' hbodylen
  rw [htake10, htakelen, List.drop_left'
    (by simp [hlen10, hlenp] :
      (wire.take 10 ++ pack16 (adcountOf wire + 1)).length = 12)]
  exact reconstruct_wire wire hw

theorem get_context_hmac (hl : Hashlib) (key : Key) (p : HashFn)
    (sz : Option Nat) (sb : List Nat) (hsec : key.secret = .bytes sb)
    (hlook : hashLookup hl key.algorithm = some (p, sz))
    (hgss : key.algorithm ≠ GSS_TSIG) :
    get_context hl key =
      .ok (.hmac { hashFn := p, size := sz, key := sb, data := [] }) := by
  simp [get_context, hgss, HMACTSig.init, hlook, hsec]

/-- C4: at a concrete input with the signing-time argument omitted, the
canonical digest is indeed computed over the defaulted
`rdata.time_signed` (= 100), but the TSIG record `sign` produces does
not carry that defaulted time — its `time_signed` field is the raw
omitted argument `none`, contradicting the claim. -/
theorem sign_default_time_not_in_record :
    _digest hashlib0 wire0 key0 rdata0 none none none false =
      _digest hashlib0 wire0 key0 rdata0 (some 100) none none false ∧
    rdata0.time_signed = some 100 ∧
    (sign hashlib0 wire0 key0 rdata0 none none none false).map
      (fun p => p.1.time_signed) = .ok none :=
  ⟨rfl, rfl, rfl⟩

/-- C5: round-trip — signing a wire with a supported HMAC key (explicit
signing time, valid rdata fields with error code 0), appending the
produced TSIG to the message (additional count bumped) and validating
with the same key, owner name equal to the key name, `now` within the
fudge of the signing time and the same request MAC, succeeds. -/
theorem sign_validate_roundtrip (hl : Hashlib) (wire : List Nat) (key : Key)
    (rdata : TSIGRdata) (t now : Nat) (rm : Option (List Nat))
    (extra : List Nat) (p : HashFn) (sz : Option Nat) (sb : List Nat)
    (tsig : TSIGRdata) (nctx : Option TsigCtx)
    (hw : 12 ≤ wire.length) (h10 : wire.getD 10 0 < 256)
    (h11 : wire.getD 11 0 < 256) (hadc : adcountOf wire + 1 < 65536)
    (hsec : key.secret = .bytes sb)
    (hlook : hashLookup hl key.algorithm = some (p, sz))
    (hgss : key.algorithm ≠ GSS_TSIG)
    (herr : rdata.error = 0) (hother : rdata.other.length ≤ 65535)
    (hid : rdata.original_id < 65536) (hfudge : rdata.fudge < 65536)
    (hrm : macTruthy rm = true → (rm.getD []).length < 65536)
    (hskew : ¬ absDiff t now > rdata.fudge)
    (hsig : sign hl wire key rdata (some t) rm none false = .ok (tsig, nctx)) :
    validate hl (withTsig wire extra) key key.name tsig now rm wire.length
      none false = .ok none := by
  obtain ⟨hlen', hg10', hg11', hadc', hnw⟩ := withTsig_facts wire extra hw h10 h11
  have hgc := get_context_hmac hl key p sz sb hsec hlook hgss
  have herr16 : rdata.error < 65536 := by omega
  have hdig1 := digest_first_eq hl wire key rdata (some t) rm _ t hgc hid
    hfudge hother herr16 hrm (Or.inl rfl)
  simp only [sign, hdig1, exceptBindOk, TsigCtx.signMac, TsigCtx.update,
    HMACTSig.update, List.nil_append, _maybe_start_digest,
    Bool.false_eq_true, if_false, Except.ok.injEq, Prod.mk.injEq] at hsig
  obtain ⟨hts, hn⟩ := hsig
  have halg : key.algorithm = tsig.algorithm := by rw [← hts]
  have ht' : tsig.time_signed = some t := by rw [← hts]
  have hfud : tsig.fudge = rdata.fudge := by rw [← hts]
  have hidq : tsig.original_id = rdata.original_id := by rw [← hts]
  have herrq : tsig.error = rdata.error := by rw [← hts]
  have hothq : tsig.other = rdata.other := by rw [← hts]
  have hmacq : tsig.mac = HMACTSig.sign
      { hashFn := p, size := sz, key := sb,
        data := rmBlock rm ++ pack16 rdata.original_id ++ wire.drop 2 ++
          key.name.to_digestable ++ pack16 rdataclassANY ++ pack32 0 ++
          key.algorithm.to_digestable ++ timeEncoded t rdata.fudge ++
          pack16 rdata.error ++ pack16 rdata.other.length ++ rdata.other } := by
    rw [← hts]
  have hadcW : adcountOf wire < 65536 := by unfold adcountOf; omega
  rw [validate_tail_eval hl (withTsig wire extra) key key.name tsig now rm
    wire.length none false t hlen' (by omega) (by omega)
    (by rw [herrq]; exact herr) ht' (by rw [hfud]; exact hskew) rfl halg]
  rw [hnw]
  have hdig2 := digest_first_eq hl wire key tsig none rm _ t hgc
    (by rw [hidq]; exact hid) (by rw [hfud]; exact hfudge)
    (by rw [hothq]; exact hother) (by rw [herrq]; exact herr16) hrm
    (Or.inr ⟨rfl, ht'⟩)
  rw [hdig2, exceptBindOk, hidq, hfud, herrq, hothq, hmacq]
  simp [TsigCtx.update, HMACTSig.update, TsigCtx.verifyMac, HMACTSig.verify,
    _maybe_start_digest, exceptBindOk]

theorem sign_validate_roundtrip_witness :
    (12 ≤ wireV.length ∧ adcountOf wireV + 1 < 65536 ∧
      key0.secret = .bytes [1, 2] ∧
      hashLookup hashlib0 key0.algorithm = some (constHash 32, none) ∧
      ¬ absDiff 100 105 > rdataTime.fudge ∧
      sign hashlib0 wireV key0 rdataTime (some 100) none none false =
        .ok (tsigW, none)) ∧
    validate hashlib0 (withTsig wireV []) key0 key0.name tsigW 105 none
      wireV.length none false = .ok none :=
  ⟨⟨by decide, by decide, rfl, rfl, by decide, rfl⟩,
   sign_validate_roundtrip hashlib0 wireV key0 rdataTime 100 105 none []
     (constHash 32) none [1, 2] tsigW none (by decide) (by decide) (by decide)
     (by decide) rfl rfl (by decide) rfl (by decide) (by decide) (by decide)
     (fun hm => absurd hm (by decide)) (by decide) rfl⟩

end Tsig
